import Mathlib

/-! Flaps machines client: a shallow embedding.

Embedding of `flaps/flaps_machines.go` (the per-machine operations of the
flaps client, the retrying lister and the wait protocol) and of the machine
set exercised by `internal/machine/machine_set_test.go`.

Conventions:
* a Go `error` is a `GoError`; a `nil` error is `Option.none`;
* `url.Values` and the header map are association lists from a key to its
  list of values;
* the request dispatcher (`sendRequestMachines`) is state passing over a
  `Client` that records every request it is handed and answers from a
  stream of replies.
-/

set_option autoImplicit false

namespace Flaps

/-! ## Errors -/

/-- A classified error coming out of the transport (`_sendRequest`): its
message and whether `errors.Is(err, FlapsErrorNotFound)` holds of it. -/
structure DispatchError where
  msg : String
  notFound : Bool
  deriving DecidableEq, Repr

/-- Go error values as met in this file: a transport error, the error of a
done context (`context.Canceled` or `context.DeadlineExceeded`), an
`fmt.Errorf("...: %w", err)` wrapper holding its formatted message, or a
`backoff.Permanent(err)` marker. -/
inductive GoError where
  | dispatch (e : DispatchError)
  | context (deadline : Bool)
  | wrap (msg : String) (inner : GoError)
  | permanent (inner : GoError)
  deriving DecidableEq, Repr

namespace GoError

/-- The `Error()` string. -/
def Error : GoError → String
  | dispatch e => e.msg
  | context deadline => if deadline then "context deadline exceeded" else "context canceled"
  | wrap msg _ => msg
  | permanent inner => inner.Error

/-- One step of `errors.Unwrap`. -/
def Unwrap : GoError → Option GoError
  | dispatch _ => none
  | context _ => none
  | wrap _ inner => some inner
  | permanent inner => some inner

/-- The chain walked by `errors.Is`: the error itself, then its successive
unwrappings. -/
def chain : GoError → List GoError
  | dispatch e => [dispatch e]
  | context d => [context d]
  | wrap msg inner => wrap msg inner :: inner.chain
  | permanent inner => permanent inner :: inner.chain

/-- The test `errors.Is(err, FlapsErrorNotFound)`. -/
def IsNotFound : GoError → Bool
  | dispatch e => e.notFound
  | context _ => false
  | wrap _ inner => inner.IsNotFound
  | permanent inner => inner.IsNotFound

end GoError

deriving instance DecidableEq for Except

/-- The call `fmt.Errorf(pre + "%w", err)`: the message is the formatted
prefix followed by the wrapped error's message. -/
def Errorf (pre : String) (err : GoError) : GoError :=
  GoError.wrap (pre ++ err.Error) err

/-- Whether `needle` occurs in `s` as a contiguous run of characters. -/
def containsStr (s needle : String) : Bool :=
  decide (needle.data <:+: s.data)

/-! ## Requests -/

/-- The actions named in this file. -/
inductive flapsAction where
  | launch | update | start | wait | stop | restart | get | list | destroy
  | kill | findLease | acquireLease | refreshLease | releaseLease | exec | ps
  | cordon | uncordon
  deriving DecidableEq, Repr

/-- An association list standing for `map[string][]string`. -/
abbrev Values := List (String × List String)

/-- The lookup `m[key]` of a Go map: `none` when the key is absent. -/
def Values.lookup (m : Values) (key : String) : Option (List String) :=
  (m.find? (fun kv => kv.1 == key)).map Prod.snd

/-- The method `url.Values.Get`: first value of the key, or `""`. -/
def Values.Get (m : Values) (key : String) : String :=
  match Values.lookup m key with
  | some (v :: _) => v
  | _ => ""

/-- The method `url.Values.Add`: append a value to the key's list. -/
def Values.Add (m : Values) (key value : String) : Values :=
  match Values.lookup m key with
  | some vs => m.map (fun kv => if kv.1 == key then (kv.1, vs ++ [value]) else kv)
  | none => m ++ [(key, [value])]

def NonceHeader : String := "fly-machine-lease-nonce"

structure flapsActionInfo where
  action : flapsAction
  machineID : String := ""
  queryParameters : Values := []
  headers : Values := []
  deriving DecidableEq, Repr

/-! ## Machines and inputs

The `api` package is outside the files at hand; of its types only the fields
read by `flaps_machines.go` are kept. -/

/-- The fields of `api.Machine` read here. -/
structure Machine where
  ID : String := ""
  InstanceID : String := ""
  Version : String := ""
  State : String := ""
  deriving DecidableEq, Repr

/-- A Go `[]*api.Machine`. -/
abbrev Machines := List Machine

/-- The role methods of `api.Machine` called by the listers. Their bodies are
in the `api` package, so they are parameters of the embedding. -/
structure MachinePredicates where
  IsFlyAppsPlatform : Machine → Bool
  IsActive : Machine → Bool
  IsFlyAppsReleaseCommand : Machine → Bool
  IsFlyAppsConsole : Machine → Bool
  IsReleaseCommandMachine : Machine → Bool

structure LaunchMachineInput where
  ID : String := ""
  deriving DecidableEq, Repr

structure StopMachineInput where
  ID : String := ""
  deriving DecidableEq, Repr

/-- The input of `Restart`. `TimeoutText` is `fmt.Sprint(in.Timeout)`, whose
rendering depends on the field's type in the `api` package. -/
structure RestartMachineInput where
  ID : String := ""
  ForceStop : Bool := false
  Timeout : Int := 0
  TimeoutText : String := ""
  Signal : String := ""
  deriving DecidableEq, Repr

structure RemoveMachineInput where
  ID : String := ""
  Kill : Bool := false
  deriving DecidableEq, Repr

/-- The rendering `fmt.Sprint(b)` of a boolean. -/
def SprintBool (b : Bool) : String := if b then "true" else "false"

/-! ## The dispatcher -/

/-- What the transport answers to one request: the error (or `nil`) and, for
a list call, the machines decoded into `out`. -/
structure Answer where
  err : Option DispatchError := none
  machines : Machines := []
  deriving DecidableEq, Repr

/-- The client together with its environment: `reply k info` is the answer
to `info` when it is the `k`-th request (counting from zero), `sent` the
requests handed to the dispatcher so far, oldest first. -/
structure Client where
  appName : String := ""
  reply : Nat → flapsActionInfo → Answer
  sent : List flapsActionInfo := []

/-- The dispatcher `sendRequestMachines`, as the black box the operations
call: endpoint and method tables and `_sendRequest` are outside this file, so
the outcome is read from the reply stream. Returns the error, the decoded
`out` and the client after the call. -/
def Client.sendRequestMachines (f : Client) (actionInfo : flapsActionInfo) :
    Option GoError × Machines × Client :=
  let a := f.reply f.sent.length actionInfo
  (a.err.map GoError.dispatch, a.machines, { f with sent := f.sent ++ [actionInfo] })

/-- The header map built at the top of every operation taking a nonce:
`headers := make(map[string][]string); if nonce != "" { headers[NonceHeader] = []string{nonce} }`. -/
def nonceHeaders (nonce : String) : Values :=
  if nonce ≠ "" then [(NonceHeader, [nonce])] else []

/-! ## Operations -/

def Client.Launch (f : Client) (_builder : LaunchMachineInput) : Option GoError × Client :=
  match f.sendRequestMachines { action := .launch } with
  | (some err, _, f1) => (some (Errorf "failed to launch VM: " err), f1)
  | (none, _, f1) => (none, f1)

def Client.Update (f : Client) (builder : LaunchMachineInput) (nonce : String) :
    Option GoError × Client :=
  let headers := nonceHeaders nonce
  match f.sendRequestMachines { action := .update, machineID := builder.ID, headers := headers } with
  | (some err, _, f1) => (some (Errorf ("failed to update VM " ++ builder.ID ++ ": ") err), f1)
  | (none, _, f1) => (none, f1)

def Client.Start (f : Client) (machineID : String) (nonce : String) : Option GoError × Client :=
  let headers := nonceHeaders nonce
  match f.sendRequestMachines { action := .start, machineID := machineID, headers := headers } with
  | (some err, _, f1) => (some (Errorf ("failed to start VM " ++ machineID ++ ": ") err), f1)
  | (none, _, f1) => (none, f1)

structure waitQuerystring where
  InstanceId : String
  TimeoutSeconds : Int
  State : String
  deriving DecidableEq, Repr

/-- The encoder `query.Values` on a `waitQuerystring`: each field goes under
its `url` tag, and `omitempty` drops a field holding its zero value. -/
def queryValues (q : waitQuerystring) : Values :=
  (if q.InstanceId ≠ "" then [("instance_id", [q.InstanceId])] else []) ++
  (if q.TimeoutSeconds ≠ 0 then [("timeout", [toString q.TimeoutSeconds])] else []) ++
  (if q.State ≠ "" then [("state", [q.State])] else [])

/-- One second, in the nanoseconds of `time.Duration`. -/
def Second : Int := 1000000000

def proxyTimeoutThreshold : Int := 60 * Second

/-- The method `time.Duration.Seconds`: whole seconds plus the fraction,
`float64(d / Second) + float64(d % Second) / 1e9` with Go's truncated
division, here as an exact rational. -/
def DurationSeconds (d : Int) : ℚ :=
  (Int.tdiv d Second : ℚ) + (Int.tmod d Second : ℚ) / 1000000000

/-- The conversion `int(x)` of a float: truncation toward zero. -/
def truncToInt (x : ℚ) : Int :=
  if 0 ≤ x then ⌊x⌋ else ⌈x⌉

/-- The two clamps of `Wait`, in source order. -/
def clampTimeout (timeout : Int) : Int :=
  let timeout := if timeout > proxyTimeoutThreshold then proxyTimeoutThreshold else timeout
  if timeout < 1 * Second then 1 * Second else timeout

/-- The request `Wait` hands to the dispatcher. -/
def waitRequest (machine : Machine) (state : String) (timeout : Int) : flapsActionInfo :=
  let state := if state = "" then "started" else state
  let version := if machine.Version ≠ "" then machine.Version else machine.InstanceID
  let timeout := clampTimeout timeout
  let timeoutSeconds := truncToInt (DurationSeconds timeout)
  let waitQs : waitQuerystring :=
    { InstanceId := version, TimeoutSeconds := timeoutSeconds, State := state }
  let qsVals := queryValues waitQs
  { action := .wait, machineID := machine.ID, queryParameters := qsVals }

def Client.Wait (f : Client) (machine : Machine) (state : String) (timeout : Int) :
    Option GoError × Client :=
  let state1 := if state = "" then "started" else state
  match f.sendRequestMachines (waitRequest machine state timeout) with
  | (some err, _, f1) =>
    (some (Errorf ("failed to wait for VM " ++ machine.ID ++ " in " ++ state1 ++ " state: ") err), f1)
  | (none, _, f1) => (none, f1)

def Client.Stop (f : Client) (input : StopMachineInput) (nonce : String) :
    Option GoError × Client :=
  let headers := nonceHeaders nonce
  match f.sendRequestMachines { action := .stop, machineID := input.ID, headers := headers } with
  | (some err, _, f1) => (some (Errorf ("failed to stop VM " ++ input.ID ++ ": ") err), f1)
  | (none, _, f1) => (none, f1)

def Client.Restart (f : Client) (input : RestartMachineInput) (nonce : String) :
    Option GoError × Client :=
  let headers := nonceHeaders nonce
  let queryParams : Values := Values.Add [] "force_stop" (SprintBool input.ForceStop)
  let queryParams :=
    if input.Timeout ≠ 0 then Values.Add queryParams "timeout" input.TimeoutText else queryParams
  let queryParams :=
    if input.Signal ≠ "" then Values.Add queryParams "signal" input.Signal else queryParams
  match f.sendRequestMachines
      { action := .restart, queryParameters := queryParams, machineID := input.ID,
        headers := headers } with
  | (some err, _, f1) => (some (Errorf ("failed to restart VM " ++ input.ID ++ ": ") err), f1)
  | (none, _, f1) => (none, f1)

def Client.Get (f : Client) (machineID : String) : Option GoError × Client :=
  match f.sendRequestMachines { action := .get, machineID := machineID } with
  | (some err, _, f1) => (some (Errorf ("failed to get VM " ++ machineID ++ ": ") err), f1)
  | (none, _, f1) => (none, f1)

/-- The call `List(ctx, state)`: one attempt, no retry. -/
def Client.List (f : Client) (state : String) : Except GoError Machines × Client :=
  let queryParameters : Values := if state ≠ "" then Values.Add [] state "" else []
  match f.sendRequestMachines { action := .list, queryParameters := queryParameters } with
  | (some err, _, f1) => (.error (Errorf "failed to list VMs: " err), f1)
  | (none, out, f1) => (.ok out, f1)

def Client.ListActive (P : MachinePredicates) (f : Client) :
    Except GoError Machines × Client :=
  match f.List "" with
  | (.error err, f1) => (.error (Errorf "failed to list active VMs: " err), f1)
  | (.ok machines, f1) =>
    (.ok (machines.filter (fun m =>
      !P.IsReleaseCommandMachine m && !P.IsFlyAppsConsole m && P.IsActive m)), f1)

/-! ## The retrying lister -/

/-- What the backoff policy and the context say after a failed attempt that
may be retried: wait and try again, give up (`NextBackOff() == Stop`, the
elapsed time budget is spent), or the context is done. The wall clock is not
modelled; a run is driven by the list of these decisions. -/
inductive BackOffStep where
  | next
  | stop
  | done (deadline : Bool)
  deriving DecidableEq, Repr

/-- The decisions of one run, in order. -/
abbrev BackOffSteps := List BackOffStep

/-- The lookup `errors.As(err, &permanent)` followed by `permanent.Err`: the
error held by the first `backoff.Permanent` marker of the chain. -/
def GoError.asPermanent : GoError → Option GoError
  | .dispatch _ => none
  | .context _ => none
  | .wrap _ inner => inner.asPermanent
  | .permanent inner => some inner

/-- How one attempt of the retry loop ends: the loop returns, or the error
may be retried. -/
inductive AttemptOutcome (σ : Type) where
  | finished (result : Option GoError × σ)
  | retriable (err : GoError) (s1 : σ)

/-- The head of the loop body of `backoff.Retry`: run the operation; return
on success; a permanent error is returned unwrapped at once. -/
def attempt {σ : Type} (operation : σ → Option GoError × σ) (s : σ) : AttemptOutcome σ :=
  match operation s with
  | (none, s1) => .finished (none, s1)
  | (some err, s1) =>
    match err.asPermanent with
    | some inner => .finished (some inner, s1)
    | none => .retriable err s1

/-- The loop of `backoff.Retry` (library `cenkalti/backoff/v4`): after an
attempt whose error may be retried, ask the backoff for the next step: on
`Stop` return the error, on a done context return the context's error,
otherwise wait and run the loop again. A spent list of steps counts as
`Stop`. -/
def Retry {σ : Type} (operation : σ → Option GoError × σ) :
    BackOffSteps → σ → Option GoError × σ
  | [], s =>
    match attempt operation s with
    | .finished result => result
    | .retriable err s1 => (some err, s1)
  | .stop :: _, s =>
    match attempt operation s with
    | .finished result => result
    | .retriable err s1 => (some err, s1)
  | .done deadline :: _, s =>
    match attempt operation s with
    | .finished result => result
    | .retriable _ s1 => (some (GoError.context deadline), s1)
  | .next :: rest, s =>
    match attempt operation s with
    | .finished result => result
    | .retriable _ s1 => Retry operation rest s1

/-- The closure handed to `backoff.Retry` by `ListFlyAppsMachines`; the state
is the captured `allMachines` and the client. -/
def listOperation (s : Machines × Client) : Option GoError × (Machines × Client) :=
  match s.2.List "" with
  | (.error err, f1) =>
    if err.IsNotFound then (some err, ([], f1)) else (some (GoError.permanent err), ([], f1))
  | (.ok out, f1) => (none, (out, f1))

/-- One turn of the classification loop of `ListFlyAppsMachines`. -/
def classifyStep (P : MachinePredicates) (acc : Machines × Option Machine) (m : Machine) :
    Machines × Option Machine :=
  if P.IsFlyAppsPlatform m && P.IsActive m && !P.IsFlyAppsReleaseCommand m
      && !P.IsFlyAppsConsole m then
    (acc.1 ++ [m], acc.2)
  else if P.IsFlyAppsReleaseCommand m then
    (acc.1, some m)
  else
    acc

/-- The classification loop: `machines` starts empty, `releaseCmdMachine`
starts `nil`. -/
def classify (P : MachinePredicates) (allMachines : Machines) : Machines × Option Machine :=
  allMachines.foldl (classifyStep P) ([], none)

def Client.ListFlyAppsMachines (P : MachinePredicates) (f : Client) (steps : BackOffSteps) :
    Except GoError (Machines × Option Machine) × Client :=
  match Retry listOperation steps ([], f) with
  | (some err, (_, f1)) => (.error (Errorf "failed to list VMs even after retries: " err), f1)
  | (none, (allMachines, f1)) => (.ok (classify P allMachines), f1)

/-! ## Remaining operations -/

def Client.Destroy (f : Client) (input : RemoveMachineInput) (nonce : String) :
    Option GoError × Client :=
  let headers := nonceHeaders nonce
  let queryParameters : Values := Values.Add [] "kill" (SprintBool input.Kill)
  match f.sendRequestMachines
      { action := .destroy, machineID := input.ID, queryParameters := queryParameters,
        headers := headers } with
  | (some err, _, f1) => (some (Errorf ("failed to destroy VM " ++ input.ID ++ ": ") err), f1)
  | (none, _, f1) => (none, f1)

def Client.Kill (f : Client) (machineID : String) : Option GoError × Client :=
  match f.sendRequestMachines { action := .kill, machineID := machineID } with
  | (some err, _, f1) => (some (Errorf ("failed to kill VM " ++ machineID ++ ": ") err), f1)
  | (none, _, f1) => (none, f1)

def Client.FindLease (f : Client) (machineID : String) : Option GoError × Client :=
  match f.sendRequestMachines { action := .findLease, machineID := machineID } with
  | (some err, _, f1) => (some (Errorf ("failed to get lease on VM " ++ machineID ++ ": ") err), f1)
  | (none, _, f1) => (none, f1)

/-- The query parameters of the two lease calls taking a `ttl *int`. -/
def ttlParameters (ttl : Option Int) : Values :=
  match ttl with
  | some t => Values.Add [] "ttl" (toString t)
  | none => []

def Client.AcquireLease (f : Client) (machineID : String) (ttl : Option Int) :
    Option GoError × Client :=
  let queryParameters := ttlParameters ttl
  match f.sendRequestMachines
      { action := .acquireLease, machineID := machineID, queryParameters := queryParameters } with
  | (some err, _, f1) => (some (Errorf ("failed to get lease on VM " ++ machineID ++ ": ") err), f1)
  | (none, _, f1) => (none, f1)

def Client.RefreshLease (f : Client) (machineID : String) (ttl : Option Int) (nonce : String) :
    Option GoError × Client :=
  let queryParameters := ttlParameters ttl
  let headers : Values := [(NonceHeader, [nonce])]
  match f.sendRequestMachines
      { action := .refreshLease, machineID := machineID, queryParameters := queryParameters,
        headers := headers } with
  | (some err, _, f1) => (some (Errorf ("failed to get lease on VM " ++ machineID ++ ": ") err), f1)
  | (none, _, f1) => (none, f1)

def Client.ReleaseLease (f : Client) (machineID nonce : String) : Option GoError × Client :=
  let headers := nonceHeaders nonce
  match f.sendRequestMachines
      { action := .releaseLease, machineID := machineID, headers := headers } with
  | (err, _, f1) => (err, f1)

def Client.Exec (f : Client) (machineID : String) : Option GoError × Client :=
  match f.sendRequestMachines { action := .exec, machineID := machineID } with
  | (some err, _, f1) => (some (Errorf ("failed to exec on VM " ++ machineID ++ ": ") err), f1)
  | (none, _, f1) => (none, f1)

def Client.GetProcesses (f : Client) (machineID : String) : Option GoError × Client :=
  match f.sendRequestMachines { action := .ps, machineID := machineID } with
  | (some err, _, f1) =>
    (some (Errorf ("failed to get processes from VM " ++ machineID ++ ": ") err), f1)
  | (none, _, f1) => (none, f1)

def Client.Cordon (f : Client) (machineID : String) : Option GoError × Client :=
  match f.sendRequestMachines { action := .cordon, machineID := machineID } with
  | (some err, _, f1) => (some (Errorf "failed to cordon VM: " err), f1)
  | (none, _, f1) => (none, f1)

def Client.Uncordon (f : Client) (machineID : String) : Option GoError × Client :=
  match f.sendRequestMachines { action := .uncordon, machineID := machineID } with
  | (some err, _, f1) => (some (Errorf "failed to uncordon VM: " err), f1)
  | (none, _, f1) => (none, f1)

/-- The request a lister attempt hands to the dispatcher: `List(ctx, "")`. -/
def listRequest : flapsActionInfo := { action := .list, queryParameters := [] }

/-- The lease header of a request: `headers[NonceHeader]`. -/
def leaseHeader (info : flapsActionInfo) : Option (List String) :=
  Values.lookup info.headers NonceHeader

/-- The request most recently handed to the dispatcher. -/
def Client.lastSent (f : Client) : Option flapsActionInfo := f.sent.getLast?

/-! ## The machine set -/

/-- Modelled from the spec: `LeasableMachine`, declared in
`internal/machine` outside the files at hand: "a Machine plus the capability
to release its lease". `releaseLease` is what `ReleaseLease(ctx)` returns. -/
structure LeasableMachine where
  machine : Machine
  releaseLease : Option GoError := none
  deriving DecidableEq, Repr

/-- The accessor `Machine()`. -/
def LeasableMachine.Machine (m : LeasableMachine) : Machine := m.machine

/-- Modelled from the spec: the `machineSet` of `internal/machine`, "an
ordered sequence of lease-bound machine handles". The field is a Go slice:
`none` is the nil slice. -/
structure machineSet where
  machines : Option (List LeasableMachine)
  deriving DecidableEq, Repr

/-- Modelled from the spec: `RemoveMachines`, whose body is in
`internal/machine` outside the files at hand. The output is "a new ordered
sequence containing every current member whose id is not present in
`removeList`'s id set, in original relative order", "never nil"; releasing
the leases of the removed members is attempted and "a release failure is
non-fatal to the removal", so no error comes back. -/
def machineSet.RemoveMachines (ms : machineSet) (removeList : List LeasableMachine) :
    Option GoError × machineSet :=
  let ids := removeList.map (fun r => r.Machine.ID)
  let tempMachines : List LeasableMachine :=
    (ms.machines.getD []).foldl
      (fun acc oldMach => if ids.contains oldMach.Machine.ID then acc else acc ++ [oldMach]) []
  let _released := removeList.map (fun r => r.releaseLease)
  (none, { machines := some tempMachines })

/-- The `mockLeasableMachine` of the test file: a machine with the given id
whose `ReleaseLease` returns `nil`. -/
def mockLeasableMachine (id : String) : LeasableMachine :=
  { machine := { ID := id }, releaseLease := none }

/-! ## Fixtures -/

/-- A client whose dispatcher answers every request with the error `e`. -/
def failingClient (e : DispatchError) : Client :=
  { reply := fun _ _ => { err := some e } }

/-- A client whose dispatcher answers every request with success and the
machines `ms`. -/
def listingClient (ms : Machines) : Client :=
  { reply := fun _ _ => { err := none, machines := ms } }

/-- Modelled from the spec: the kinds of machine a list answer can hold,
"platform-active-workload, platform-release-command, platform-console,
non-platform, destroyed" (section 8); a machine is of one kind. -/
inductive MachineKind where
  | workload
  | releaseCommand
  | console
  | nonPlatform
  | destroyed
  deriving DecidableEq, Repr

/-- Modelled from the spec: the kind of a machine, read from its stored
fields ("a tag/role field or name-matching heuristic", section 9): destroyed
or destroying by the state ("is active (not destroyed/destroying)"),
otherwise by the id. -/
def machineKind (m : Machine) : MachineKind :=
  if m.State == "destroyed" || m.State == "destroying" then .destroyed
  else if m.ID == "foreign" then .nonPlatform
  else if m.ID == "release" then .releaseCommand
  else if m.ID == "console" then .console
  else .workload

/-- Modelled from the spec: the role methods of `api.Machine`, whose bodies
are in the `api` package: each is a test on the machine's kind, so a
release-command machine is on the platform, active and not a console. -/
def fixturePredicates : MachinePredicates where
  IsFlyAppsPlatform := fun m =>
    machineKind m == .workload || machineKind m == .releaseCommand
      || machineKind m == .console
  IsActive := fun m => machineKind m != .destroyed
  IsFlyAppsReleaseCommand := fun m => machineKind m == .releaseCommand
  IsFlyAppsConsole := fun m => machineKind m == .console
  IsReleaseCommandMachine := fun m => machineKind m == .releaseCommand

/-! ## Properties of a returned error -/

/-- The returned error has the dispatcher's error `e` on its unwrap chain, and
the NotFound test answers on it as on `e`. -/
def wrapsError (res : Option GoError) (e : DispatchError) : Bool :=
  match res with
  | none => false
  | some err => decide (GoError.dispatch e ∈ err.chain) && (err.IsNotFound == e.notFound)

/-- The returned error wraps `e` as in `wrapsError`, is not `e` itself, and
its message holds the text `opText` naming the operation and the machine
id `m`. -/
def wrapsNaming (res : Option GoError) (e : DispatchError) (opText m : String) : Bool :=
  match res with
  | none => false
  | some err =>
    wrapsError (some err) e && (err != GoError.dispatch e)
      && containsStr err.Error opText && containsStr err.Error m

/-! # Theorems -/

/-! ## Machine set -/

theorem foldl_keep_eq_filter {α : Type} (p : α → Bool) (xs acc : List α) :
    xs.foldl (fun acc x => if p x then acc else acc ++ [x]) acc
      = acc ++ xs.filter (fun x => !p x) := by
  induction xs generalizing acc with
  | nil => simp
  | cons x xs ih =>
    simp only [List.foldl_cons, ih, List.filter_cons]
    cases p x <;> simp

theorem not_contains_ids (R : List LeasableMachine) (x : String) :
    (!(R.map (fun r => r.Machine.ID)).contains x)
      = decide (∀ r ∈ R, x ≠ r.Machine.ID) := by
  rw [Bool.eq_iff_iff]
  simp only [Bool.not_eq_true', decide_eq_true_eq]
  constructor
  · intro h r hr hEq
    have : (R.map (fun r => r.Machine.ID)).contains x = true := by
      rw [List.contains_iff_exists_mem_beq]
      exact ⟨x, List.mem_map.mpr ⟨r, hr, hEq.symm⟩, by simp⟩
    rw [h] at this
    exact Bool.noConfusion this
  · intro h
    rw [Bool.eq_false_iff]
    intro hc
    rw [List.contains_iff_exists_mem_beq] at hc
    obtain ⟨y, hy, hxy⟩ := hc
    obtain ⟨r, hr, hEq⟩ := List.mem_map.mp hy
    have hxy1 : x = y := by simpa using hxy
    exact h r hr (hxy1.trans hEq.symm)

theorem RemoveMachines_machines (ms : machineSet) (R : List LeasableMachine) :
    (ms.RemoveMachines R).2.machines
      = some ((ms.machines.getD []).filter
          (fun m => decide (∀ r ∈ R, m.Machine.ID ≠ r.Machine.ID))) := by
  show some (List.foldl _ [] (ms.machines.getD [])) = _
  rw [foldl_keep_eq_filter, List.nil_append]
  congr 1
  apply List.filter_congr
  intro m _
  exact not_contains_ids R m.Machine.ID

/-- C1: for a machine set `S` and a removal list `R` whose `ReleaseLease`
calls succeed, `RemoveMachines` returns no error and leaves exactly the
members of `S` whose machine id equals the id of no element of `R`, in their
original order (a filter of `S`); the result is a non-nil sequence, empty
when every member is removed; handles that differ from a member only
outside the id still remove it. -/
theorem RemoveMachines_spec (S R : List LeasableMachine)
    (hR : ∀ r ∈ R, r.releaseLease = none) :
    (machineSet.RemoveMachines { machines := some S } R).1 = none ∧
    (machineSet.RemoveMachines { machines := some S } R).2.machines
      = some (S.filter (fun m => decide (∀ r ∈ R, m.Machine.ID ≠ r.Machine.ID))) ∧
    ((∀ m ∈ S, ∃ r ∈ R, m.Machine.ID = r.Machine.ID) →
      (machineSet.RemoveMachines { machines := some S } R).2.machines = some []) ∧
    (∀ r ∈ R, ∀ m ∈ S, m.Machine.ID = r.Machine.ID →
      ∀ kept, (machineSet.RemoveMachines { machines := some S } R).2.machines = some kept →
        m ∉ kept) := by
  have _ := hR
  have hfilter : (machineSet.RemoveMachines { machines := some S } R).2.machines
      = some (S.filter (fun m => decide (∀ r ∈ R, m.Machine.ID ≠ r.Machine.ID))) := by
    rw [RemoveMachines_machines]
    rfl
  refine ⟨rfl, hfilter, ?_, ?_⟩
  · intro hall
    rw [hfilter, Option.some.injEq, List.filter_eq_nil_iff]
    intro m hm
    obtain ⟨r, hr, hEq⟩ := hall m hm
    simp only [decide_eq_true_eq, not_forall]
    exact ⟨r, hr, fun hne => hne hEq⟩
  · intro r hr m _ hEq kept hkept hmem
    rw [hfilter, Option.some.injEq] at hkept
    subst hkept
    have := (List.mem_filter.mp hmem).2
    simp only [decide_eq_true_eq] at this
    exact this r hr hEq

/-- The three cases of `TestRemoveMachines`: from the set `[1, 2]`, removing
`[1]` leaves `[2]`, removing `[1, 2]` leaves the empty non-nil sequence and
removing nothing leaves `[1, 2]`; no error in each case. -/
theorem RemoveMachines_spec_witness :
    (∀ r ∈ [mockLeasableMachine "1"], r.releaseLease = none) ∧
    (machineSet.RemoveMachines
        { machines := some [mockLeasableMachine "1", mockLeasableMachine "2"] }
        [mockLeasableMachine "1"]).2.machines = some [mockLeasableMachine "2"] ∧
    (machineSet.RemoveMachines
        { machines := some [mockLeasableMachine "1", mockLeasableMachine "2"] }
        [mockLeasableMachine "1", mockLeasableMachine "2"]).2.machines = some [] ∧
    (machineSet.RemoveMachines
        { machines := some [mockLeasableMachine "1", mockLeasableMachine "2"] }
        []).2.machines = some [mockLeasableMachine "1", mockLeasableMachine "2"] ∧
    (machineSet.RemoveMachines
        { machines := some [mockLeasableMachine "1", mockLeasableMachine "2"] }
        [mockLeasableMachine "1"]).1 = none :=
  ⟨by decide, by decide, by decide, by decide,
    (RemoveMachines_spec [mockLeasableMachine "1", mockLeasableMachine "2"]
      [mockLeasableMachine "1"] (by decide)).1⟩

/-! ## Wait -/

theorem Second_pos : (0 : Int) < Second := by decide

theorem trunc_seconds (d : Int) (hd : 0 ≤ d) :
    truncToInt (DurationSeconds d) = d / Second := by
  have hS : (0 : Int) ≤ Second := by decide
  have h1 : Int.tdiv d Second = d / Second := Int.tdiv_eq_ediv hd hS
  have h2 : Int.tmod d Second = d % Second := Int.tmod_eq_emod hd hS
  have hq : 0 ≤ d / Second := Int.ediv_nonneg hd hS
  have hr0 : 0 ≤ d % Second := Int.emod_nonneg _ (by decide)
  have hr1 : d % Second < 1000000000 := Int.emod_lt_of_pos _ (by decide)
  unfold truncToInt DurationSeconds
  rw [h1, h2]
  have hr0q : (0 : ℚ) ≤ ((d % Second : Int) : ℚ) := by exact_mod_cast hr0
  have hr1q : ((d % Second : Int) : ℚ) < 1000000000 := by exact_mod_cast hr1
  have hqq : (0 : ℚ) ≤ ((d / Second : Int) : ℚ) := by exact_mod_cast hq
  have hfrac0 : (0 : ℚ) ≤ ((d % Second : Int) : ℚ) / 1000000000 := by positivity
  have hfrac1 : ((d % Second : Int) : ℚ) / 1000000000 < 1 := by
    rw [div_lt_one (by norm_num)]
    exact hr1q
  rw [if_pos (by linarith)]
  rw [Int.floor_eq_iff]
  constructor <;> linarith

theorem clampTimeout_eq (t : Int) :
    clampTimeout t
      = if t < Second then Second else if t > 60 * Second then 60 * Second else t := by
  unfold clampTimeout proxyTimeoutThreshold
  have hS := Second_pos
  simp only [one_mul]
  split_ifs <;> omega

/-- The whole seconds `Wait` puts in the query: the clamp of `t`. -/
theorem waitSeconds_eq (t : Int) :
    truncToInt (DurationSeconds (clampTimeout t))
      = if t < Second then 1 else if t > 60 * Second then 60 else t / Second := by
  have hS := Second_pos
  have hnn : 0 ≤ clampTimeout t := by
    rw [clampTimeout_eq]
    split_ifs <;> omega
  rw [trunc_seconds _ hnn, clampTimeout_eq]
  split_ifs
  · exact Int.ediv_self (ne_of_gt hS)
  · exact Int.mul_ediv_cancel 60 (ne_of_gt hS)
  · rfl

theorem waitSeconds_ne_zero (t : Int) :
    truncToInt (DurationSeconds (clampTimeout t)) ≠ 0 := by
  rw [waitSeconds_eq]
  have hS := Second_pos
  split_ifs with h1 h2
  · decide
  · decide
  · have : 1 ≤ t / Second := by
      rw [Int.le_ediv_iff_mul_le hS]
      omega
    omega

theorem lookup_timeout_queryValues (q : waitQuerystring) (h : q.TimeoutSeconds ≠ 0) :
    Values.lookup (queryValues q) "timeout" = some [toString q.TimeoutSeconds] := by
  unfold queryValues
  by_cases hi : q.InstanceId = "" <;> simp [Values.lookup, hi, h, List.find?]

theorem lookup_instance_queryValues (q : waitQuerystring) :
    Values.lookup (queryValues q) "instance_id"
      = if q.InstanceId ≠ "" then some [q.InstanceId] else none := by
  unfold queryValues
  by_cases hi : q.InstanceId = "" <;> by_cases ht : q.TimeoutSeconds = 0 <;>
    by_cases hs : q.State = "" <;> simp [Values.lookup, hi, ht, hs, List.find?]

/-- C2: for every timeout `t` in nanoseconds (any integer, zero and negative
included) the `timeout` query parameter of the request `Wait` hands to the
dispatcher is present, with the single value the decimal text of the whole
seconds of `t` clamped into `[1s, 60s]`: 1 below one second, 60 above sixty,
`t / 1s` rounded down otherwise; the inputs 0s, 0.5s, 200s and -5s send 1, 1,
60 and 1. -/
theorem Wait_timeout_clamped (f : Client) (machine : Machine) (state : String) (t : Int) :
    (f.Wait machine state t).2.lastSent = some (waitRequest machine state t) ∧
    Values.lookup (waitRequest machine state t).queryParameters "timeout"
      = some [toString
          (if t < Second then (1 : Int) else if t > 60 * Second then 60 else t / Second)] ∧
    Values.lookup (waitRequest machine state 0).queryParameters "timeout" = some ["1"] ∧
    Values.lookup (waitRequest machine state 500000000).queryParameters "timeout"
      = some ["1"] ∧
    Values.lookup (waitRequest machine state (200 * Second)).queryParameters "timeout"
      = some ["60"] ∧
    Values.lookup (waitRequest machine state (-5 * Second)).queryParameters "timeout"
      = some ["1"] := by
  have key : ∀ u : Int,
      Values.lookup (waitRequest machine state u).queryParameters "timeout"
        = some [toString
            (if u < Second then (1 : Int) else if u > 60 * Second then 60 else u / Second)] := by
    intro u
    have h0 : (waitRequest machine state u).queryParameters = queryValues
        { InstanceId := if machine.Version ≠ "" then machine.Version else machine.InstanceID,
          TimeoutSeconds := truncToInt (DurationSeconds (clampTimeout u)),
          State := if state = "" then "started" else state } := rfl
    rw [h0, lookup_timeout_queryValues _ (waitSeconds_ne_zero u)]
    simp only [waitSeconds_eq]
  refine ⟨?_, key t, ?_, ?_, ?_, ?_⟩
  · simp [Client.Wait, Client.sendRequestMachines, Client.lastSent]
    cases (f.reply f.sent.length (waitRequest machine state t)).err <;> simp
  · rw [key]; decide
  · rw [key]; decide
  · rw [key]; decide
  · rw [key]; decide

/-- C10: the `instance_id` query parameter of the request `Wait` hands to the
dispatcher is the machine's version when the version is non-empty and the
machine's instance id when the version is empty; when both are empty the
parameter is left out, and `Get` reads the empty instance id. -/
theorem Wait_identifier_preference (f : Client) (machine : Machine) (state : String)
    (t : Int) :
    (f.Wait machine state t).2.lastSent = some (waitRequest machine state t) ∧
    Values.lookup (waitRequest machine state t).queryParameters "instance_id"
      = (if machine.Version ≠ "" then some [machine.Version]
         else if machine.InstanceID ≠ "" then some [machine.InstanceID]
         else none) ∧
    Values.Get (waitRequest machine state t).queryParameters "instance_id"
      = (if machine.Version ≠ "" then machine.Version else machine.InstanceID) := by
  have key : Values.lookup (waitRequest machine state t).queryParameters "instance_id"
      = (if machine.Version ≠ "" then some [machine.Version]
         else if machine.InstanceID ≠ "" then some [machine.InstanceID]
         else none) := by
    have h := lookup_instance_queryValues
      { InstanceId := if machine.Version ≠ "" then machine.Version else machine.InstanceID,
        TimeoutSeconds := truncToInt (DurationSeconds (clampTimeout t)),
        State := if state = "" then "started" else state }
    have h2 : Values.lookup (waitRequest machine state t).queryParameters "instance_id"
        = _ := h
    rw [h2]
    by_cases hv : machine.Version = "" <;> simp [hv]
  refine ⟨?_, key, ?_⟩
  · simp [Client.Wait, Client.sendRequestMachines, Client.lastSent]
    cases (f.reply f.sent.length (waitRequest machine state t)).err <;> simp
  · unfold Values.Get
    rw [key]
    by_cases hv : machine.Version = "" <;> by_cases hi : machine.InstanceID = "" <;>
      simp [hv, hi]

/-! ## The retrying lister -/

theorem listOperation_eq (s : Machines × Client) :
    listOperation s =
      match (s.2.reply s.2.sent.length listRequest).err with
      | some e =>
        (some (if e.notFound then Errorf "failed to list VMs: " (GoError.dispatch e)
               else GoError.permanent (Errorf "failed to list VMs: " (GoError.dispatch e))),
          ([], { s.2 with sent := s.2.sent ++ [listRequest] }))
      | none =>
        (none, ((s.2.reply s.2.sent.length listRequest).machines,
          { s.2 with sent := s.2.sent ++ [listRequest] })) := by
  unfold listOperation Client.List Client.sendRequestMachines listRequest
  simp only [ne_eq, not_true_eq_false, if_false]
  cases h : (s.2.reply s.2.sent.length
      { action := flapsAction.list, queryParameters := [] }).err with
  | none => simp
  | some e =>
    cases hn : e.notFound <;> simp [Errorf, GoError.IsNotFound, hn]

theorem attempt_list_success (s : Machines × Client)
    (h : (s.2.reply s.2.sent.length listRequest).err = none) :
    attempt listOperation s
      = .finished (none, ((s.2.reply s.2.sent.length listRequest).machines,
          { s.2 with sent := s.2.sent ++ [listRequest] })) := by
  simp [attempt, listOperation_eq, h]

theorem attempt_list_permanent (s : Machines × Client)
    (e : DispatchError) (h : (s.2.reply s.2.sent.length listRequest).err = some e)
    (hn : e.notFound = false) :
    attempt listOperation s
      = .finished (some (Errorf "failed to list VMs: " (GoError.dispatch e)),
          ([], { s.2 with sent := s.2.sent ++ [listRequest] })) := by
  simp [attempt, listOperation_eq, h, hn, GoError.asPermanent]

theorem attempt_list_notFound (s : Machines × Client)
    (e : DispatchError) (h : (s.2.reply s.2.sent.length listRequest).err = some e)
    (hn : e.notFound = true) :
    attempt listOperation s
      = .retriable (Errorf "failed to list VMs: " (GoError.dispatch e))
          ([], { s.2 with sent := s.2.sent ++ [listRequest] }) := by
  simp [attempt, listOperation_eq, h, hn, GoError.asPermanent, Errorf]

theorem Retry_list_success (steps : BackOffSteps) (s : Machines × Client)
    (h : (s.2.reply s.2.sent.length listRequest).err = none) :
    Retry listOperation steps s
      = (none, ((s.2.reply s.2.sent.length listRequest).machines,
          { s.2 with sent := s.2.sent ++ [listRequest] })) := by
  match steps with
  | [] => simp [Retry, attempt_list_success s h]
  | .stop :: _ => simp [Retry, attempt_list_success s h]
  | .done _ :: _ => simp [Retry, attempt_list_success s h]
  | .next :: _ => simp [Retry, attempt_list_success s h]

theorem Retry_list_permanent (steps : BackOffSteps) (s : Machines × Client)
    (e : DispatchError) (h : (s.2.reply s.2.sent.length listRequest).err = some e)
    (hn : e.notFound = false) :
    Retry listOperation steps s
      = (some (Errorf "failed to list VMs: " (GoError.dispatch e)),
          ([], { s.2 with sent := s.2.sent ++ [listRequest] })) := by
  match steps with
  | [] => simp [Retry, attempt_list_permanent s e h hn]
  | .stop :: _ => simp [Retry, attempt_list_permanent s e h hn]
  | .done _ :: _ => simp [Retry, attempt_list_permanent s e h hn]
  | .next :: _ => simp [Retry, attempt_list_permanent s e h hn]

/-- What a run of the retry loop over the list operation does: it makes
`n + 1` attempts for some `n` within the steps granted, every attempt before
the last was answered by a NotFound error, and a run ending without error
holds the machines of the last answer, which was a success. -/
theorem Retry_list_spec (steps : BackOffSteps) (s : Machines × Client) :
    ∃ n : Nat, n ≤ steps.length ∧
      (Retry listOperation steps s).2.2.sent
        = s.2.sent ++ List.replicate (n + 1) listRequest ∧
      (Retry listOperation steps s).2.2.reply = s.2.reply ∧
      (∀ k, k < n → ∃ e, (s.2.reply (s.2.sent.length + k) listRequest).err = some e ∧
        e.notFound = true) ∧
      ((Retry listOperation steps s).1 = none →
        (s.2.reply (s.2.sent.length + n) listRequest).err = none ∧
        (Retry listOperation steps s).2.1
          = (s.2.reply (s.2.sent.length + n) listRequest).machines) := by
  induction steps generalizing s with
  | nil =>
    refine ⟨0, le_refl _, ?_⟩
    cases h : (s.2.reply s.2.sent.length listRequest).err with
    | none => simp [Retry_list_success [] s h, h]
    | some e =>
      cases hn : e.notFound with
      | false => simp [Retry_list_permanent [] s e h hn]
      | true => simp [Retry, attempt_list_notFound s e h hn]
  | cons step rest ih =>
    cases h : (s.2.reply s.2.sent.length listRequest).err with
    | none =>
      exact ⟨0, Nat.zero_le _, by simp [Retry_list_success (step :: rest) s h, h]⟩
    | some e =>
      cases hn : e.notFound with
      | false =>
        exact ⟨0, Nat.zero_le _, by simp [Retry_list_permanent (step :: rest) s e h hn]⟩
      | true =>
        cases step with
        | stop =>
          exact ⟨0, Nat.zero_le _, by simp [Retry, attempt_list_notFound s e h hn]⟩
        | done deadline =>
          exact ⟨0, Nat.zero_le _, by simp [Retry, attempt_list_notFound s e h hn]⟩
        | next =>
          obtain ⟨n, hle, hsent, hreply, hbefore, hok⟩ :=
            ih ([], { s.2 with sent := s.2.sent ++ [listRequest] })
          have hstep : Retry listOperation (BackOffStep.next :: rest) s
              = Retry listOperation rest
                  ([], { s.2 with sent := s.2.sent ++ [listRequest] }) := by
            simp [Retry, attempt_list_notFound s e h hn]
          have hidx : ∀ k, s.2.sent.length + 1 + k = s.2.sent.length + (k + 1) := by
            intro k; omega
          refine ⟨n + 1, by simpa using hle, ?_, ?_, ?_, ?_⟩
          · rw [hstep, hsent]
            simp [List.replicate_succ]
          · rw [hstep, hreply]
          · intro k hk
            cases k with
            | zero => exact ⟨e, by simpa using h, hn⟩
            | succ k =>
              have := hbefore k (by omega)
              simpa [hidx] using this
          · intro hnone
            rw [hstep] at hnone ⊢
            have := hok hnone
            simpa [hidx] using this

theorem classify_foldl_fst (P : MachinePredicates) (all : Machines)
    (acc : Machines × Option Machine) :
    (all.foldl (classifyStep P) acc).1
      = acc.1 ++ all.filter (fun m => P.IsFlyAppsPlatform m && P.IsActive m
          && !P.IsFlyAppsReleaseCommand m && !P.IsFlyAppsConsole m) := by
  induction all generalizing acc with
  | nil => simp
  | cons m all ih =>
    rw [List.foldl_cons, ih, List.filter_cons]
    unfold classifyStep
    cases h1 : P.IsFlyAppsPlatform m <;> cases h2 : P.IsActive m <;>
      cases h3 : P.IsFlyAppsReleaseCommand m <;> cases h4 : P.IsFlyAppsConsole m <;>
      simp

theorem classify_fst (P : MachinePredicates) (all : Machines) :
    (classify P all).1
      = all.filter (fun m => P.IsFlyAppsPlatform m && P.IsActive m
          && !P.IsFlyAppsReleaseCommand m && !P.IsFlyAppsConsole m) := by
  unfold classify
  rw [classify_foldl_fst]
  rfl

theorem ListFlyAppsMachines_client (P : MachinePredicates) (f : Client)
    (steps : BackOffSteps) :
    (f.ListFlyAppsMachines P steps).2 = (Retry listOperation steps ([], f)).2.2 := by
  unfold Client.ListFlyAppsMachines
  rcases Retry listOperation steps ([], f) with ⟨_ | err, ms, f1⟩ <;> rfl

theorem ListFlyAppsMachines_result (P : MachinePredicates) (f : Client)
    (steps : BackOffSteps) :
    (f.ListFlyAppsMachines P steps).1
      = match (Retry listOperation steps ([], f)).1 with
        | some err => .error (Errorf "failed to list VMs even after retries: " err)
        | none => .ok (classify P (Retry listOperation steps ([], f)).2.1) := by
  unfold Client.ListFlyAppsMachines
  rcases Retry listOperation steps ([], f) with ⟨_ | err, ms, f1⟩ <;> rfl

/-- C3: when `ListFlyAppsMachines` succeeds, its last `List` attempt was
answered with success, and the workload output is exactly the machines of
that answer, in their order, that are part of the platform and active and not
a release-command machine and not a console machine: a machine is in the
output iff it is in the list and passes the four tests. -/
theorem ListFlyAppsMachines_workload (P : MachinePredicates) (f : Client)
    (steps : BackOffSteps) (out : Machines × Option Machine)
    (h : (f.ListFlyAppsMachines P steps).1 = .ok out) :
    ∃ n : Nat,
      (f.ListFlyAppsMachines P steps).2.sent
        = f.sent ++ List.replicate (n + 1) listRequest ∧
      (f.reply (f.sent.length + n) listRequest).err = none ∧
      out.1 = (f.reply (f.sent.length + n) listRequest).machines.filter
        (fun m => P.IsFlyAppsPlatform m && P.IsActive m
          && !P.IsFlyAppsReleaseCommand m && !P.IsFlyAppsConsole m) ∧
      (∀ m, m ∈ out.1 ↔ m ∈ (f.reply (f.sent.length + n) listRequest).machines ∧
        P.IsFlyAppsPlatform m = true ∧ P.IsActive m = true ∧
        P.IsFlyAppsReleaseCommand m = false ∧ P.IsFlyAppsConsole m = false) := by
  obtain ⟨n, _, hsent, _, _, hok⟩ := Retry_list_spec steps ([], f)
  rw [ListFlyAppsMachines_result] at h
  cases hr : (Retry listOperation steps ([], f)).1 with
  | some err => rw [hr] at h; cases h
  | none =>
    rw [hr] at h
    obtain ⟨hans, hms⟩ := hok hr
    have hout : out.1 = (f.reply (f.sent.length + n) listRequest).machines.filter
        (fun m => P.IsFlyAppsPlatform m && P.IsActive m
          && !P.IsFlyAppsReleaseCommand m && !P.IsFlyAppsConsole m) := by
      have h1 : classify P (Retry listOperation steps ([], f)).2.1 = out := by
        simpa using h
      rw [← h1, classify_fst, hms]
    refine ⟨n, ?_, hans, hout, ?_⟩
    · rw [ListFlyAppsMachines_client]; exact hsent
    · intro m
      rw [hout, List.mem_filter]
      simp [and_assoc]

/-- A mixed answer on the first attempt: a workload machine, a
release-command machine, a console machine, a machine outside the platform
and a destroyed machine give the workload machine alone as first output. -/
theorem ListFlyAppsMachines_workload_witness :
    ((listingClient [{ ID := "web" }, { ID := "release" }, { ID := "console" },
        { ID := "foreign" }, { ID := "old", State := "destroyed" }]).ListFlyAppsMachines
        fixturePredicates []).1 = .ok ([{ ID := "web" }], some { ID := "release" }) ∧
    ∃ n : Nat,
      ((listingClient [{ ID := "web" }, { ID := "release" }, { ID := "console" },
        { ID := "foreign" }, { ID := "old", State := "destroyed" }]).ListFlyAppsMachines
        fixturePredicates []).2.sent = [] ++ List.replicate (n + 1) listRequest ∧
      ([{ ID := "web" }] : Machines)
        = List.filter (fun m => fixturePredicates.IsFlyAppsPlatform m
            && fixturePredicates.IsActive m && !fixturePredicates.IsFlyAppsReleaseCommand m
            && !fixturePredicates.IsFlyAppsConsole m)
          [{ ID := "web" }, { ID := "release" }, { ID := "console" },
            { ID := "foreign" }, { ID := "old", State := "destroyed" }] := by
  refine ⟨by decide, ?_⟩
  obtain ⟨n, h1, _, h3, _⟩ := ListFlyAppsMachines_workload fixturePredicates
    (listingClient [{ ID := "web" }, { ID := "release" }, { ID := "console" },
        { ID := "foreign" }, { ID := "old", State := "destroyed" }]) []
    ([{ ID := "web" }], some { ID := "release" }) (by decide)
  exact ⟨n, h1, h3⟩

theorem classify_foldl_snd (P : MachinePredicates) (all : Machines)
    (acc : Machines × Option Machine) (m : Machine)
    (h : (all.foldl (classifyStep P) acc).2 = some m) :
    acc.2 = some m ∨ (m ∈ all ∧ P.IsFlyAppsReleaseCommand m = true) := by
  induction all generalizing acc with
  | nil => exact Or.inl h
  | cons x all ih =>
    rw [List.foldl_cons] at h
    rcases ih (classifyStep P acc x) h with hacc | ⟨hmem, hrc⟩
    · unfold classifyStep at hacc
      split_ifs at hacc with h1 h2
      · exact Or.inl hacc
      · have hx : x = m := by simpa using hacc
        subst hx
        exact Or.inr ⟨List.mem_cons_self _ _, h2⟩
      · exact Or.inl hacc
    · exact Or.inr ⟨List.mem_cons_of_mem _ hmem, hrc⟩

theorem fixturePredicates_release (m : Machine)
    (h : fixturePredicates.IsFlyAppsReleaseCommand m = true) :
    fixturePredicates.IsActive m = true ∧ fixturePredicates.IsFlyAppsConsole m = false := by
  have hk : machineKind m = MachineKind.releaseCommand := by
    simpa [fixturePredicates] using h
  simp [fixturePredicates, hk]

/-- C4: when `ListFlyAppsMachines` succeeds, every machine of the workload
output is active and not a console machine; the release-command output, when
not nil, is a machine of the answer for which `IsFlyAppsReleaseCommand` holds,
and it is active and not a console machine as soon as the role methods make a
release-command machine active and not a console, as the kinds of the spec
do. -/
theorem ListFlyAppsMachines_excludes_console_and_destroyed (P : MachinePredicates)
    (f : Client) (steps : BackOffSteps) (out : Machines × Option Machine)
    (h : (f.ListFlyAppsMachines P steps).1 = .ok out) :
    (∀ m ∈ out.1, P.IsActive m = true ∧ P.IsFlyAppsConsole m = false) ∧
    (∀ m, out.2 = some m → P.IsFlyAppsReleaseCommand m = true) ∧
    ((∀ m, P.IsFlyAppsReleaseCommand m = true →
        P.IsActive m = true ∧ P.IsFlyAppsConsole m = false) →
      ∀ m, out.2 = some m → P.IsActive m = true ∧ P.IsFlyAppsConsole m = false) := by
  rw [ListFlyAppsMachines_result] at h
  cases hr : (Retry listOperation steps ([], f)).1 with
  | some err => rw [hr] at h; cases h
  | none =>
    rw [hr] at h
    have h1 : classify P (Retry listOperation steps ([], f)).2.1 = out := by
      simpa using h
    have hrel : ∀ m, out.2 = some m → P.IsFlyAppsReleaseCommand m = true := by
      intro m hm
      rw [← h1] at hm
      rcases classify_foldl_snd P _ ([], none) m hm with hacc | ⟨_, hrc⟩
      · cases hacc
      · exact hrc
    refine ⟨?_, hrel, fun hP m hm => hP m (hrel m hm)⟩
    intro m hm
    rw [← h1, classify_fst, List.mem_filter] at hm
    have hp := hm.2
    simp only [Bool.and_eq_true, Bool.not_eq_true'] at hp
    exact ⟨hp.1.1.2, hp.2⟩

/-- A mixed answer: the workload output holds the workload machine alone and
the release-command output is the release-command machine, which is active
and not a console; the console, foreign and destroyed machines are in neither
output. -/
theorem ListFlyAppsMachines_excludes_console_and_destroyed_witness :
    ((listingClient [{ ID := "web" }, { ID := "release" }, { ID := "console" },
        { ID := "foreign" }, { ID := "old", State := "destroyed" }]).ListFlyAppsMachines
        fixturePredicates []).1 = .ok ([{ ID := "web" }], some { ID := "release" }) ∧
    (∀ m, fixturePredicates.IsFlyAppsReleaseCommand m = true →
        fixturePredicates.IsActive m = true ∧ fixturePredicates.IsFlyAppsConsole m = false) ∧
    (∀ m ∈ ([{ ID := "web" }] : Machines),
      fixturePredicates.IsActive m = true ∧ fixturePredicates.IsFlyAppsConsole m = false) ∧
    (∀ m : Machine, some ({ ID := "release" } : Machine) = some m →
      fixturePredicates.IsActive m = true ∧ fixturePredicates.IsFlyAppsConsole m = false) :=
  ⟨by decide, fixturePredicates_release,
    (ListFlyAppsMachines_excludes_console_and_destroyed fixturePredicates
      (listingClient [{ ID := "web" }, { ID := "release" }, { ID := "console" },
        { ID := "foreign" }, { ID := "old", State := "destroyed" }]) []
      ([{ ID := "web" }], some { ID := "release" }) (by decide)).1,
    (ListFlyAppsMachines_excludes_console_and_destroyed fixturePredicates
      (listingClient [{ ID := "web" }, { ID := "release" }, { ID := "console" },
        { ID := "foreign" }, { ID := "old", State := "destroyed" }]) []
      ([{ ID := "web" }], some { ID := "release" }) (by decide)).2.2
      fixturePredicates_release⟩

theorem mem_chain_self (err : GoError) : err ∈ err.chain := by
  cases err <;> simp [GoError.chain]

theorem mem_chain_Errorf (pre : String) (inner target : GoError)
    (h : target ∈ inner.chain) : target ∈ (Errorf pre inner).chain := by
  simp [Errorf, GoError.chain, h]

/-- C7: in `ListFlyAppsMachines`, when the first `List` attempt is answered by
an error that is not NotFound, exactly one attempt is made and the call
returns the "even after retries" wrapper of the `List` wrapper of that error,
which is reached by unwrapping; and in every run each attempt but the last
was answered by a NotFound error, so a further attempt only follows a
NotFound failure. -/
theorem ListFlyAppsMachines_retries_only_after_notFound (P : MachinePredicates)
    (f : Client) (steps : BackOffSteps) :
    (∀ e : DispatchError, (f.reply f.sent.length listRequest).err = some e →
      e.notFound = false →
      (f.ListFlyAppsMachines P steps).1
        = .error (Errorf "failed to list VMs even after retries: "
            (Errorf "failed to list VMs: " (GoError.dispatch e))) ∧
      (f.ListFlyAppsMachines P steps).2.sent = f.sent ++ [listRequest] ∧
      GoError.dispatch e ∈ (Errorf "failed to list VMs even after retries: "
            (Errorf "failed to list VMs: " (GoError.dispatch e))).chain) ∧
    (∃ n : Nat, n ≤ steps.length ∧
      (f.ListFlyAppsMachines P steps).2.sent
        = f.sent ++ List.replicate (n + 1) listRequest ∧
      ∀ k, k < n → ∃ e, (f.reply (f.sent.length + k) listRequest).err = some e ∧
        e.notFound = true) := by
  constructor
  · intro e he hn
    have hR := Retry_list_permanent steps ([], f) e he hn
    refine ⟨?_, ?_, ?_⟩
    · rw [ListFlyAppsMachines_result, hR]
    · rw [ListFlyAppsMachines_client, hR]
    · exact mem_chain_Errorf _ _ _ (mem_chain_Errorf _ _ _ (mem_chain_self _))
  · obtain ⟨n, hle, hsent, _, hbefore, _⟩ := Retry_list_spec steps ([], f)
    exact ⟨n, hle, by rw [ListFlyAppsMachines_client]; exact hsent, hbefore⟩

/-- A dispatcher answering a plain error: with two retries granted, one
attempt is made and the wrapped error comes back. -/
theorem ListFlyAppsMachines_retries_only_after_notFound_witness :
    ((failingClient { msg := "boom", notFound := false }).reply 0 listRequest).err
        = some { msg := "boom", notFound := false } ∧
    ((failingClient { msg := "boom", notFound := false }).ListFlyAppsMachines
        fixturePredicates [.next, .next]).1
      = .error (Errorf "failed to list VMs even after retries: "
          (Errorf "failed to list VMs: "
            (GoError.dispatch { msg := "boom", notFound := false }))) ∧
    ((failingClient { msg := "boom", notFound := false }).ListFlyAppsMachines
        fixturePredicates [.next, .next]).2.sent = [listRequest] :=
  ⟨by decide,
    ((ListFlyAppsMachines_retries_only_after_notFound fixturePredicates
      (failingClient { msg := "boom", notFound := false }) [.next, .next]).1
        { msg := "boom", notFound := false } (by decide) (by decide)).1,
    ((ListFlyAppsMachines_retries_only_after_notFound fixturePredicates
      (failingClient { msg := "boom", notFound := false }) [.next, .next]).1
        { msg := "boom", notFound := false } (by decide) (by decide)).2.1⟩

theorem containsStr_marker (x : String) :
    containsStr ("failed to list VMs even after retries: " ++ x) "even after retries"
      = true := by
  unfold containsStr
  rw [decide_eq_true_eq]
  refine ⟨"failed to list VMs ".data, ": ".data ++ x.data, ?_⟩
  rw [String.data_append, ← List.append_assoc]
  congr 1

/-- C8, the run that refutes it: a dispatcher answering a plain error (not
NotFound) makes `ListFlyAppsMachines` fail on its first and only attempt,
with retries still granted, and the returned error carries "even after
retries". -/
theorem marker_on_first_attempt_failure :
    ((failingClient { msg := "boom", notFound := false }).ListFlyAppsMachines
        fixturePredicates [.next, .next]).2.sent = [listRequest] ∧
    ∃ err, ((failingClient { msg := "boom", notFound := false }).ListFlyAppsMachines
        fixturePredicates [.next, .next]).1 = .error err ∧
      err.Error = "failed to list VMs even after retries: failed to list VMs: boom" ∧
      containsStr err.Error "even after retries" = true :=
  ⟨by decide, _, rfl, by decide, by decide⟩

/-- C8 as amended: every error `ListFlyAppsMachines` returns is the "failed to
list VMs even after retries: " wrapper of the error the retry loop ended
with, so its message carries "even after retries" whether the retry budget
was spent on NotFound answers or the first attempt failed. -/
theorem ListFlyAppsMachines_error_always_marked (P : MachinePredicates) (f : Client)
    (steps : BackOffSteps) (err : GoError)
    (h : (f.ListFlyAppsMachines P steps).1 = .error err) :
    (∃ inner, (Retry listOperation steps ([], f)).1 = some inner ∧
      err = Errorf "failed to list VMs even after retries: " inner ∧
      err.Error = "failed to list VMs even after retries: " ++ inner.Error) ∧
    containsStr err.Error "even after retries" = true := by
  rw [ListFlyAppsMachines_result] at h
  cases hr : (Retry listOperation steps ([], f)).1 with
  | none => rw [hr] at h; cases h
  | some inner =>
    rw [hr] at h
    have he : err = Errorf "failed to list VMs even after retries: " inner := by
      simpa using h.symm
    subst he
    exact ⟨⟨inner, rfl, rfl, rfl⟩, containsStr_marker inner.Error⟩

/-- Two failing runs, both marked: NotFound on every attempt until the backoff
stops, and a plain error on the first attempt. -/
theorem ListFlyAppsMachines_error_always_marked_witness :
    (((failingClient { msg := "gone", notFound := true }).ListFlyAppsMachines
        fixturePredicates [.next, .stop]).2.sent = [listRequest, listRequest] ∧
      containsStr (Errorf "failed to list VMs even after retries: "
        (Errorf "failed to list VMs: "
          (GoError.dispatch { msg := "gone", notFound := true }))).Error
        "even after retries" = true) ∧
    (((failingClient { msg := "boom", notFound := false }).ListFlyAppsMachines
        fixturePredicates [.next, .stop]).2.sent = [listRequest] ∧
      containsStr (Errorf "failed to list VMs even after retries: "
        (Errorf "failed to list VMs: "
          (GoError.dispatch { msg := "boom", notFound := false }))).Error
        "even after retries" = true) :=
  ⟨⟨by decide,
    (ListFlyAppsMachines_error_always_marked fixturePredicates
      (failingClient { msg := "gone", notFound := true }) [.next, .stop] _ (by decide)).2⟩,
   ⟨by decide,
    (ListFlyAppsMachines_error_always_marked fixturePredicates
      (failingClient { msg := "boom", notFound := false }) [.next, .stop] _ (by decide)).2⟩⟩

/-! ## Lease header -/

theorem leaseHeader_nonceHeaders (info : flapsActionInfo) (nonce : String)
    (h : info.headers = nonceHeaders nonce) :
    leaseHeader info = if nonce ≠ "" then some [nonce] else none := by
  unfold leaseHeader
  rw [h]
  by_cases hn : nonce = "" <;> simp [nonceHeaders, Values.lookup, hn, List.find?]

theorem lastSent_send (f : Client) (info : flapsActionInfo) :
    (f.sendRequestMachines info).2.2.lastSent = some info := by
  simp [Client.sendRequestMachines, Client.lastSent]

/-- C5, where it fails: `Cordon` and `Uncordon` take no nonce, and the request
each hands to the dispatcher has no lease header; so it is not the case that
the request of `Cordon` carries the nonce of a caller holding a lease. -/
theorem Cordon_carries_no_lease_header :
    ((listingClient []).Cordon "m1").2.lastSent.map leaseHeader = some none ∧
    ((listingClient []).Uncordon "m1").2.lastSent.map leaseHeader = some none ∧
    ¬ (∀ (f : Client) (machineID nonce : String), nonce ≠ "" →
        (f.Cordon machineID).2.lastSent.map leaseHeader = some (some [nonce])) := by
  refine ⟨by decide, by decide, ?_⟩
  intro h
  have h1 := h (listingClient []) "m1" "n1" (by decide)
  revert h1
  decide

/-- C5 as amended: `Update`, `Start`, `Stop`, `Restart` and `Destroy` take a
nonce, and the request each hands to the dispatcher carries the header
"fly-machine-lease-nonce" with the single value `nonce` when `nonce` is
non-empty and no lease header when it is empty; `Cordon` and `Uncordon` take
no nonce and their request carries no lease header. -/
theorem mutating_requests_lease_header (f : Client) (nonce machineID : String)
    (builder : LaunchMachineInput) (stopIn : StopMachineInput)
    (restartIn : RestartMachineInput) (removeIn : RemoveMachineInput) :
    NonceHeader = "fly-machine-lease-nonce" ∧
    (f.Update builder nonce).2.lastSent.map leaseHeader
      = some (if nonce ≠ "" then some [nonce] else none) ∧
    (f.Start machineID nonce).2.lastSent.map leaseHeader
      = some (if nonce ≠ "" then some [nonce] else none) ∧
    (f.Stop stopIn nonce).2.lastSent.map leaseHeader
      = some (if nonce ≠ "" then some [nonce] else none) ∧
    (f.Restart restartIn nonce).2.lastSent.map leaseHeader
      = some (if nonce ≠ "" then some [nonce] else none) ∧
    (f.Destroy removeIn nonce).2.lastSent.map leaseHeader
      = some (if nonce ≠ "" then some [nonce] else none) ∧
    (f.Cordon machineID).2.lastSent.map leaseHeader = some none ∧
    (f.Uncordon machineID).2.lastSent.map leaseHeader = some none := by
  refine ⟨rfl, ?_, ?_, ?_, ?_, ?_, ?_, ?_⟩
  · have hs := lastSent_send f
      { action := .update, machineID := builder.ID, headers := nonceHeaders nonce }
    have hl : (f.Update builder nonce).2.lastSent = some
        { action := .update, machineID := builder.ID, headers := nonceHeaders nonce } := by
      rw [← hs]; unfold Client.Update; simp only []; split <;> simp_all
    rw [hl, Option.map_some', leaseHeader_nonceHeaders _ nonce rfl]
  · have hs := lastSent_send f
      { action := .start, machineID := machineID, headers := nonceHeaders nonce }
    have hl : (f.Start machineID nonce).2.lastSent = some
        { action := .start, machineID := machineID, headers := nonceHeaders nonce } := by
      rw [← hs]; unfold Client.Start; simp only []; split <;> simp_all
    rw [hl, Option.map_some', leaseHeader_nonceHeaders _ nonce rfl]
  · have hs := lastSent_send f
      { action := .stop, machineID := stopIn.ID, headers := nonceHeaders nonce }
    have hl : (f.Stop stopIn nonce).2.lastSent = some
        { action := .stop, machineID := stopIn.ID, headers := nonceHeaders nonce } := by
      rw [← hs]; unfold Client.Stop; simp only []; split <;> simp_all
    rw [hl, Option.map_some', leaseHeader_nonceHeaders _ nonce rfl]
  · unfold Client.Restart
    simp only []
    split <;> rename_i heq <;>
      · have hs := congrArg (fun r => r.2.2.lastSent) heq
        simp only [lastSent_send] at hs
        rw [← hs, Option.map_some', leaseHeader_nonceHeaders _ nonce rfl]
  · unfold Client.Destroy
    simp only []
    split <;> rename_i heq <;>
      · have hs := congrArg (fun r => r.2.2.lastSent) heq
        simp only [lastSent_send] at hs
        rw [← hs, Option.map_some', leaseHeader_nonceHeaders _ nonce rfl]
  · unfold Client.Cordon
    split <;> rename_i heq <;>
      · have hs := congrArg (fun r => r.2.2.lastSent) heq
        simp only [lastSent_send] at hs
        rw [← hs]
        rfl
  · unfold Client.Uncordon
    split <;> rename_i heq <;>
      · have hs := congrArg (fun r => r.2.2.lastSent) heq
        simp only [lastSent_send] at hs
        rw [← hs]
        rfl

/-! ## Lease release -/

/-- C6, the run that refutes it: with an empty nonce and a dispatcher that
answers the release request with an error, `ReleaseLease` returns that
error. -/
theorem ReleaseLease_empty_nonce_returns_error :
    ((failingClient { msg := "lease not found", notFound := true }).ReleaseLease "m1" "").1
      = some (GoError.dispatch { msg := "lease not found", notFound := true }) ∧
    ((failingClient { msg := "lease not found", notFound := true }).ReleaseLease "m1" "").1
      ≠ none := by
  decide

/-- C6 as amended: `ReleaseLease` with an empty nonce hands the dispatcher a
release request for the machine with no lease header and returns exactly the
dispatcher's answer to it: no error when the dispatcher answers none, the
dispatcher's error, unwrapped, otherwise. -/
theorem ReleaseLease_returns_dispatcher_answer (f : Client) (machineID : String) :
    (f.ReleaseLease machineID "").2.lastSent
      = some { action := .releaseLease, machineID := machineID, headers := [] } ∧
    (f.ReleaseLease machineID "").2.lastSent.map leaseHeader = some none ∧
    (f.ReleaseLease machineID "").1
      = (f.reply f.sent.length
          { action := .releaseLease, machineID := machineID, headers := [] }).err.map
          GoError.dispatch ∧
    ((f.ReleaseLease machineID "").1 = none ↔
      (f.reply f.sent.length
          { action := .releaseLease, machineID := machineID, headers := [] }).err = none) := by
  have hl : (f.ReleaseLease machineID "").2.lastSent
      = some { action := .releaseLease, machineID := machineID, headers := [] } := by
    simp [Client.ReleaseLease, Client.sendRequestMachines, Client.lastSent, nonceHeaders]
  have hr : (f.ReleaseLease machineID "").1
      = (f.reply f.sent.length
          { action := .releaseLease, machineID := machineID, headers := [] }).err.map
          GoError.dispatch := by
    simp [Client.ReleaseLease, Client.sendRequestMachines, nonceHeaders]
  refine ⟨hl, ?_, hr, ?_⟩
  · rw [hl]; rfl
  · rw [hr]; simp

/-! ## Error wrapping -/

theorem containsStr_left (a rest : String) : containsStr (a ++ rest) a = true := by
  unfold containsStr
  rw [decide_eq_true_eq, String.data_append]
  exact ⟨[], rest.data, by simp⟩

theorem containsStr_mid (a m rest : String) : containsStr (a ++ m ++ rest) m = true := by
  unfold containsStr
  rw [decide_eq_true_eq, String.data_append, String.data_append]
  exact ⟨a.data, rest.data, rfl⟩

theorem wrapsError_Errorf (pre : String) (e : DispatchError) :
    wrapsError (some (Errorf pre (GoError.dispatch e))) e = true := by
  simp [wrapsError, Errorf, GoError.chain, GoError.IsNotFound]

theorem wrapsNaming_Errorf (a m b : String) (e : DispatchError) :
    wrapsNaming (some (Errorf (a ++ m ++ b) (GoError.dispatch e))) e a m = true := by
  unfold wrapsNaming
  have h1 : containsStr (Errorf (a ++ m ++ b) (GoError.dispatch e)).Error a = true := by
    have : (Errorf (a ++ m ++ b) (GoError.dispatch e)).Error = a ++ (m ++ b ++ e.msg) := by
      simp [Errorf, GoError.Error, String.append_assoc]
    rw [this]
    exact containsStr_left _ _
  have h2 : containsStr (Errorf (a ++ m ++ b) (GoError.dispatch e)).Error m = true := by
    have : (Errorf (a ++ m ++ b) (GoError.dispatch e)).Error = a ++ m ++ (b ++ e.msg) := by
      simp [Errorf, GoError.Error, String.append_assoc]
    rw [this]
    exact containsStr_mid _ _ _
  have h3 : (Errorf (a ++ m ++ b) (GoError.dispatch e) != GoError.dispatch e) = true := by
    simp [Errorf]
  show (wrapsError (some (Errorf (a ++ m ++ b) (GoError.dispatch e))) e
    && (Errorf (a ++ m ++ b) (GoError.dispatch e) != GoError.dispatch e)
    && containsStr (Errorf (a ++ m ++ b) (GoError.dispatch e)).Error a
    && containsStr (Errorf (a ++ m ++ b) (GoError.dispatch e)).Error m) = true
  rw [wrapsError_Errorf, h1, h2, h3]
  rfl

theorem send_error (f : Client) (e : DispatchError) (info : flapsActionInfo)
    (h : ∀ info, (f.reply f.sent.length info).err = some e) :
    f.sendRequestMachines info
      = (some (GoError.dispatch e), (f.reply f.sent.length info).machines,
          { f with sent := f.sent ++ [info] }) := by
  simp [Client.sendRequestMachines, h info]

/-- C9, where it fails: against a dispatcher answering the error "boom",
`ReleaseLease` on machine "m1" returns that error itself, with no message of
its own, and `Cordon` and `Uncordon` return a wrapper whose message does not
hold the machine id. -/
theorem ReleaseLease_Cordon_errors_lack_machine_id :
    ((failingClient { msg := "boom", notFound := true }).ReleaseLease "m1" "n1").1
      = some (GoError.dispatch { msg := "boom", notFound := true }) ∧
    containsStr (GoError.dispatch { msg := "boom", notFound := true }).Error "m1" = false ∧
    wrapsNaming ((failingClient { msg := "boom", notFound := true }).ReleaseLease "m1" "n1").1
      { msg := "boom", notFound := true } "release" "m1" = false ∧
    ((failingClient { msg := "boom", notFound := true }).Cordon "m1").1
      = some (GoError.wrap "failed to cordon VM: boom"
          (GoError.dispatch { msg := "boom", notFound := true })) ∧
    containsStr "failed to cordon VM: boom" "m1" = false ∧
    ((failingClient { msg := "boom", notFound := true }).Uncordon "m1").1
      = some (GoError.wrap "failed to uncordon VM: boom"
          (GoError.dispatch { msg := "boom", notFound := true })) ∧
    containsStr "failed to uncordon VM: boom" "m1" = false := by
  decide

/-- C9 as amended: when the dispatcher answers the error `e`, each of `Update`,
`Start`, `Wait`, `Stop`, `Restart`, `Get`, `Destroy`, `Kill`, `FindLease`,
`AcquireLease`, `RefreshLease`, `Exec` and `GetProcesses` returns a wrapper of
`e` (`e` is on its unwrap chain and the NotFound test answers as on `e`)
whose message holds the operation's text and the machine id; `ReleaseLease`
returns `e` itself; `Cordon` and `Uncordon` return a wrapper of `e` whose
message is "failed to cordon VM: " or "failed to uncordon VM: " followed by
the message of `e`. -/
theorem operations_wrap_dispatcher_error (f : Client) (e : DispatchError)
    (h : ∀ info, (f.reply f.sent.length info).err = some e)
    (nonce machineID state : String) (timeout : Int) (ttl : Option Int)
    (machine : Machine)
    (builder : LaunchMachineInput) (stopIn : StopMachineInput)
    (restartIn : RestartMachineInput) (removeIn : RemoveMachineInput) :
    wrapsNaming (f.Update builder nonce).1 e "failed to update VM " builder.ID = true ∧
    wrapsNaming (f.Start machineID nonce).1 e "failed to start VM " machineID = true ∧
    wrapsNaming (f.Stop stopIn nonce).1 e "failed to stop VM " stopIn.ID = true ∧
    wrapsNaming (f.Restart restartIn nonce).1 e "failed to restart VM " restartIn.ID = true ∧
    wrapsNaming (f.Get machineID).1 e "failed to get VM " machineID = true ∧
    wrapsNaming (f.Destroy removeIn nonce).1 e "failed to destroy VM " removeIn.ID = true ∧
    wrapsNaming (f.Kill machineID).1 e "failed to kill VM " machineID = true ∧
    wrapsNaming (f.FindLease machineID).1 e "failed to get lease on VM " machineID = true ∧
    wrapsNaming (f.AcquireLease machineID ttl).1 e "failed to get lease on VM " machineID = true ∧
    wrapsNaming (f.RefreshLease machineID ttl nonce).1 e "failed to get lease on VM " machineID = true ∧
    wrapsNaming (f.Exec machineID).1 e "failed to exec on VM " machineID = true ∧
    wrapsNaming (f.GetProcesses machineID).1 e "failed to get processes from VM " machineID = true ∧
    wrapsNaming (f.Wait machine state timeout).1 e "failed to wait for VM " machine.ID
      = true ∧
    (f.ReleaseLease machineID nonce).1 = some (GoError.dispatch e) ∧
    wrapsError (f.ReleaseLease machineID nonce).1 e = true ∧
    (f.Cordon machineID).1
      = some (GoError.wrap ("failed to cordon VM: " ++ e.msg) (GoError.dispatch e)) ∧
    wrapsError (f.Cordon machineID).1 e = true ∧
    (f.Uncordon machineID).1
      = some (GoError.wrap ("failed to uncordon VM: " ++ e.msg) (GoError.dispatch e)) ∧
    wrapsError (f.Uncordon machineID).1 e = true := by
  have hRel : (f.ReleaseLease machineID nonce).1 = some (GoError.dispatch e) := by
    simp [Client.ReleaseLease, send_error f e _ h]
  have hCor : (f.Cordon machineID).1
      = some (Errorf "failed to cordon VM: " (GoError.dispatch e)) := by
    simp [Client.Cordon, send_error f e _ h]
  have hUnc : (f.Uncordon machineID).1
      = some (Errorf "failed to uncordon VM: " (GoError.dispatch e)) := by
    simp [Client.Uncordon, send_error f e _ h]
  refine ⟨?_, ?_, ?_, ?_, ?_, ?_, ?_, ?_, ?_, ?_, ?_, ?_, ?_, hRel, ?_, ?_, ?_, ?_, ?_⟩
  · have hres : (f.Update builder nonce).1
        = some (Errorf ("failed to update VM " ++ builder.ID ++ ": ") (GoError.dispatch e)) := by
      simp [Client.Update, send_error f e _ h]
    rw [hres]
    exact wrapsNaming_Errorf _ _ _ e
  · have hres : (f.Start machineID nonce).1
        = some (Errorf ("failed to start VM " ++ machineID ++ ": ") (GoError.dispatch e)) := by
      simp [Client.Start, send_error f e _ h]
    rw [hres]
    exact wrapsNaming_Errorf _ _ _ e
  · have hres : (f.Stop stopIn nonce).1
        = some (Errorf ("failed to stop VM " ++ stopIn.ID ++ ": ") (GoError.dispatch e)) := by
      simp [Client.Stop, send_error f e _ h]
    rw [hres]
    exact wrapsNaming_Errorf _ _ _ e
  · have hres : (f.Restart restartIn nonce).1
        = some (Errorf ("failed to restart VM " ++ restartIn.ID ++ ": ") (GoError.dispatch e)) := by
      simp [Client.Restart, send_error f e _ h]
    rw [hres]
    exact wrapsNaming_Errorf _ _ _ e
  · have hres : (f.Get machineID).1
        = some (Errorf ("failed to get VM " ++ machineID ++ ": ") (GoError.dispatch e)) := by
      simp [Client.Get, send_error f e _ h]
    rw [hres]
    exact wrapsNaming_Errorf _ _ _ e
  · have hres : (f.Destroy removeIn nonce).1
        = some (Errorf ("failed to destroy VM " ++ removeIn.ID ++ ": ") (GoError.dispatch e)) := by
      simp [Client.Destroy, send_error f e _ h]
    rw [hres]
    exact wrapsNaming_Errorf _ _ _ e
  · have hres : (f.Kill machineID).1
        = some (Errorf ("failed to kill VM " ++ machineID ++ ": ") (GoError.dispatch e)) := by
      simp [Client.Kill, send_error f e _ h]
    rw [hres]
    exact wrapsNaming_Errorf _ _ _ e
  · have hres : (f.FindLease machineID).1
        = some (Errorf ("failed to get lease on VM " ++ machineID ++ ": ") (GoError.dispatch e)) := by
      simp [Client.FindLease, send_error f e _ h]
    rw [hres]
    exact wrapsNaming_Errorf _ _ _ e
  · have hres : (f.AcquireLease machineID ttl).1
        = some (Errorf ("failed to get lease on VM " ++ machineID ++ ": ") (GoError.dispatch e)) := by
      simp [Client.AcquireLease, send_error f e _ h]
    rw [hres]
    exact wrapsNaming_Errorf _ _ _ e
  · have hres : (f.RefreshLease machineID ttl nonce).1
        = some (Errorf ("failed to get lease on VM " ++ machineID ++ ": ") (GoError.dispatch e)) := by
      simp [Client.RefreshLease, send_error f e _ h]
    rw [hres]
    exact wrapsNaming_Errorf _ _ _ e
  · have hres : (f.Exec machineID).1
        = some (Errorf ("failed to exec on VM " ++ machineID ++ ": ") (GoError.dispatch e)) := by
      simp [Client.Exec, send_error f e _ h]
    rw [hres]
    exact wrapsNaming_Errorf _ _ _ e
  · have hres : (f.GetProcesses machineID).1
        = some (Errorf ("failed to get processes from VM " ++ machineID ++ ": ") (GoError.dispatch e)) := by
      simp [Client.GetProcesses, send_error f e _ h]
    rw [hres]
    exact wrapsNaming_Errorf _ _ _ e
  · have hres : (f.Wait machine state timeout).1
        = some (Errorf ("failed to wait for VM " ++ machine.ID
            ++ (" in " ++ (if state = "" then "started" else state) ++ " state: "))
            (GoError.dispatch e)) := by
      simp [Client.Wait, send_error f e _ h, String.append_assoc]
    rw [hres]
    exact wrapsNaming_Errorf _ _ _ e
  · rw [hRel]
    simp [wrapsError, GoError.chain, GoError.IsNotFound]
  · rw [hCor]; rfl
  · rw [hCor]; exact wrapsError_Errorf _ e
  · rw [hUnc]; rfl
  · rw [hUnc]; exact wrapsError_Errorf _ e

/-- A dispatcher answering a NotFound error "boom": `Start` on "m1" returns
"failed to start VM m1: boom", on which the NotFound test still succeeds. -/
theorem operations_wrap_dispatcher_error_witness :
    (∀ info, ((failingClient { msg := "boom", notFound := true }).reply
        (failingClient { msg := "boom", notFound := true }).sent.length info).err
        = some { msg := "boom", notFound := true }) ∧
    ((failingClient { msg := "boom", notFound := true }).Start "m1" "n1").1
      = some (GoError.wrap "failed to start VM m1: boom"
          (GoError.dispatch { msg := "boom", notFound := true })) ∧
    wrapsNaming ((failingClient { msg := "boom", notFound := true }).Start "m1" "n1").1
      { msg := "boom", notFound := true } "failed to start VM " "m1" = true :=
  ⟨fun _ => rfl, by decide,
    (operations_wrap_dispatcher_error (failingClient { msg := "boom", notFound := true })
      { msg := "boom", notFound := true } (fun _ => rfl) "n1" "m1" "" 0 none {} {} {} {} {}).2.1⟩

end Flaps
